import Mathlib

/-!
Verification of the ConduitPolysynth core (src/src/polysynth/polysynth.h)
against its natural-language specification.

The repository provides only the header `polysynth.h`; the bodies of
`process`, `handleInboundEvent`, `handleNoteOn`, `handleNoteOff` and
`handleEventsFromUIQueue` live in a cpp file that is not part of the
sources, so those operations are modelled from the specification
(each such definition carries a doc comment starting `Modelled from the
spec:`).  Declarations that are fully present in the header —
`startProcessing`, `stopProcessing`, `voiceInfoGet`,
`UICommunicationBundle::getParameterDescription`, the `ToUI` / `FromUI`
message types, the queue capacities and `max_voices` — are embedded
directly from the source.

Machine integers: `updateCount` is a `std::atomic<uint32_t>` and is
embedded as a `Nat` reduced mod `2^32` (overflow matters for the
monotonicity claim).  Parameter values are C++ `double`s but the core
performs no arithmetic on them, only storage and forwarding, so they are
embedded as `Rat`.
-/

/-- Parameter identifiers are `uint32_t` in the source (`paramIds`). -/
abbrev ParamId := Nat

/-- Parameter values are `double` in the source; the core only stores and
forwards them (no arithmetic), so we embed them as `Rat`. -/
abbrev PVal := Rat

/-- `ConduitPolysynth::max_voices = 64` (polysynth.h line 68). -/
def max_voices : Nat := 64

/-- `paramIds::pmUnisonCount` (polysynth.h line 104). -/
def pmUnisonCount : ParamId := 1378

/-- `paramIds::pmUnisonSpread` (polysynth.h line 105). -/
def pmUnisonSpread : ParamId := 2391

/-- `paramIds::pmOscDetune` (polysynth.h line 106). -/
def pmOscDetune : ParamId := 8675309

/-- `paramIds::pmAmpAttack` (polysynth.h line 108). -/
def pmAmpAttack : ParamId := 2874

/-- `paramIds::pmAmpRelease` (polysynth.h line 109). -/
def pmAmpRelease : ParamId := 728

/-- `paramIds::pmAmpIsGate` (polysynth.h line 110). -/
def pmAmpIsGate : ParamId := 1942

/-- `paramIds::pmPreFilterVCA` (polysynth.h line 112). -/
def pmPreFilterVCA : ParamId := 87612

/-- `paramIds::pmCutoff` (polysynth.h line 114). -/
def pmCutoff : ParamId := 17

/-- `paramIds::pmResonance` (polysynth.h line 115). -/
def pmResonance : ParamId := 94

/-- `paramIds::pmFilterMode` (polysynth.h line 116). -/
def pmFilterMode : ParamId := 14255

/-- Modelled from the spec: the `SawDemoVoice` class (saw-voice.h) is not in
the provided sources.  §3 of the spec gives the lifecycle states
Idle / Active / Releasing. -/
inductive VoiceState
  | Idle
  | Active
  | Releasing
deriving DecidableEq

/-- Modelled from the spec: a Voice's attributes per §3 — lifecycle state and
the originating (port, channel, key, note-id) tuple.  The private
parameter-value snapshot and sample-rate belong to the excluded per-voice DSP
unit and are not touched by any claim. -/
structure Voice where
  state : VoiceState
  portid : Int
  channel : Int
  key : Int
  note_id : Int
deriving DecidableEq

/-- A pre-allocated pool slot before any note has claimed it (pool is created
at process start per §3). -/
def initVoice : Voice :=
  { state := VoiceState.Idle, portid := 0, channel := 0, key := 0, note_id := 0 }

/-- `ToUI::MType` (polysynth.h lines 220–225). -/
inductive ToUIType
  | PARAM_VALUE
  | MIDI_NOTE_ON
  | MIDI_NOTE_OFF
deriving DecidableEq

/-- `struct ToUI` (polysynth.h lines 218–229): `id` is the param-id for
PARAM_VALUE and the key for note on/off; `value` is the value or unused. -/
structure ToUI where
  type : ToUIType
  id : Nat
  value : PVal
deriving DecidableEq

/-- `FromUI::MType` (polysynth.h lines 233–238). -/
inductive FromUIType
  | BEGIN_EDIT
  | END_EDIT
  | ADJUST_VALUE
deriving DecidableEq

/-- `struct FromUI` (polysynth.h lines 231–241). -/
structure FromUI where
  type : FromUIType
  id : ParamId
  value : PVal
deriving DecidableEq

/-- Modelled from the spec: the queues are `moodycamel::ReaderWriterQueue`
instances (an external library header, not in the provided sources).  §4.3
specifies their contract: a bounded single-producer/single-consumer FIFO,
`tryEnqueue -> bool` returning false on full (message dropped), `tryDequeue ->
optional<msg>`, capacity fixed at construction (4096 in polysynth.h lines
253–254). -/
structure BQueue (α : Type) where
  capacity : Nat
  items : List α
deriving DecidableEq

/-- Modelled from the spec (§4.3): enqueue succeeds exactly when the queue is
not full; on full the message is dropped and `false` is returned. -/
def tryEnqueue {α : Type} (q : BQueue α) (x : α) : BQueue α × Bool :=
  if q.items.length < q.capacity then (⟨q.capacity, q.items ++ [x]⟩, true)
  else (q, false)

/-- Modelled from the spec (§4.3): dequeue returns the oldest message, or
`none` when the queue is empty; never blocks. -/
def tryDequeue {α : Type} (q : BQueue α) : BQueue α × Option α :=
  match q.items with
  | [] => (q, none)
  | x :: xs => (⟨q.capacity, xs⟩, some x)

/-- Enqueue a whole list of messages in order with no intervening dequeue,
collecting each `tryEnqueue` result. -/
def enqueueAll {α : Type} (q : BQueue α) (ms : List α) : BQueue α × List Bool :=
  match ms with
  | [] => (q, [])
  | m :: rest =>
      let r1 := tryEnqueue q m
      let r2 := enqueueAll r1.1 rest
      (r2.1, r1.2 :: r2.2)

/-- The `FromUI` queue as declared in the source:
`moodycamel::ReaderWriterQueue<FromUI, 4096>` (polysynth.h line 254),
capacity 4096 per §4.3, starting empty. -/
def emptyFromUIQueue : BQueue FromUI := ⟨4096, []⟩

/-- The `ToUI` queue as declared in the source:
`moodycamel::ReaderWriterQueue<ToUI, 4096>` (polysynth.h line 253). -/
def emptyToUIQueue : BQueue ToUI := ⟨4096, []⟩

/-- Modelled from the spec: the live parameter cells (the `float *` members at
polysynth.h lines 281–282 and the id → cell map built by the constructor in
the missing cpp file).  §3 requires exactly one storage cell per identifier,
with the identifier set fixed for the process lifetime; concrete default
values live in the missing cpp file and are immaterial to every claim, so all
cells start at 0. -/
def defaultParams : List (ParamId × PVal) :=
  [(pmUnisonCount, 0), (pmUnisonSpread, 0), (pmOscDetune, 0), (pmAmpAttack, 0),
   (pmAmpRelease, 0), (pmAmpIsGate, 0), (pmPreFilterVCA, 0), (pmCutoff, 0),
   (pmResonance, 0), (pmFilterMode, 0)]

/-- Whether a parameter identifier is present in the table (the id → cell map
lookup the dispatcher performs). -/
def knownParam (ps : List (ParamId × PVal)) (id : ParamId) : Bool :=
  ps.any (fun p => p.1 == id)

/-- Read the storage cell of a parameter identifier. -/
def getParam (ps : List (ParamId × PVal)) (id : ParamId) : PVal :=
  match ps.find? (fun p => p.1 == id) with
  | some p => p.2
  | none => 0

/-- Write the storage cell of a parameter identifier (the single point where
control-surface or host intent becomes audio-thread truth, §4.2); the
identifier set is unchanged. -/
def setParam (ps : List (ParamId × PVal)) (id : ParamId) (v : PVal) :
    List (ParamId × PVal) :=
  ps.map (fun p => if p.1 = id then (id, v) else p)

/-- The audio-thread state of `ConduitPolysynth`: the fixed voice pool and the
terminated-voices log (polysynth.h lines 286–288), the parameter cells, the
synth→UI queue, the host event-output sink contents for the current block, and
the dropped-event counter (§7 taxonomy (c)). -/
structure SynthState where
  voices : List Voice
  terminatedVoices : List (Int × Int × Int × Int)
  params : List (ParamId × PVal)
  toUiQ : BQueue ToUI
  outEvents : List FromUI
  droppedEvents : Nat
deriving DecidableEq

/-- Index of the first Idle voice in the pool, scanning in index order
(§4.1: "Scans the fixed pool for a voice in Idle state in index order"). -/
def firstIdleIdx : List Voice → Option Nat
  | [] => none
  | v :: vs =>
      if v.state = VoiceState.Idle then some 0
      else (firstIdleIdx vs).map (· + 1)

/-- `ConduitPolysynth::activateVoice` (declared polysynth.h line 173, body in
the missing cpp file), modelled from the spec §4.1: transition the slot to
Active and stamp it with the note identity. -/
def activatedVoice (port channel key noteid : Int) : Voice :=
  { state := VoiceState.Active, portid := port, channel := channel,
    key := key, note_id := noteid }

/-- Modelled from the spec: the body of `ConduitPolysynth::handleNoteOn`
(declared polysynth.h line 171) is in the missing cpp file.  Per §4.1: scan
the pool in index order for an Idle voice and activate it; if none exists,
pick a victim — any slot, with no deterministic priority (§9), modelled by the
oracle `steal` — record its (port, channel, key, noteId) in the
terminated-voices log (polysynth.h line 288) and repurpose its slot.  The new
voice's initial parameter snapshot (taken from ParamTable per §4.2) belongs to
the excluded DSP unit. -/
def handleNoteOn (steal : SynthState → Nat) (s : SynthState)
    (port channel key noteid : Int) : SynthState :=
  match firstIdleIdx s.voices with
  | some i => { s with voices := s.voices.set i (activatedVoice port channel key noteid) }
  | none =>
      let j := steal s % s.voices.length
      let victim := s.voices.getD j initVoice
      { s with
        voices := s.voices.set j (activatedVoice port channel key noteid),
        terminatedVoices :=
          s.terminatedVoices ++
            [(victim.portid, victim.channel, victim.key, victim.note_id)] }

/-- Whether a voice is Active with the given (port, channel, key) identity
(§4.1: release "finds the first Active voice matching the identity"). -/
def voiceMatches (v : Voice) (port channel key : Int) : Bool :=
  decide (v.state = VoiceState.Active ∧ v.portid = port ∧
          v.channel = channel ∧ v.key = key)

/-- The state a released voice transitions to: Releasing, or Idle immediately
when the gated amplitude mode parameter is set (glossary: a gated envelope
ends sound immediately on note-off). -/
def releasedState (ampIsGate : PVal) : VoiceState :=
  if ampIsGate = 0 then VoiceState.Releasing else VoiceState.Idle

/-- Release the first Active voice matching the identity; every other slot is
untouched, and no match means no change (§4.1 edge case). -/
def releaseFirst (ns : VoiceState) (port channel key : Int) :
    List Voice → List Voice
  | [] => []
  | v :: vs =>
      if voiceMatches v port channel key then { v with state := ns } :: vs
      else v :: releaseFirst ns port channel key vs

/-- Modelled from the spec: the body of `ConduitPolysynth::handleNoteOff`
(declared polysynth.h line 172) is in the missing cpp file.  Per §4.1:
find the first Active voice matching (port, channel, key) and transition it to
Releasing (or directly to Idle in gated amplitude mode); releasing a note with
no matching Active voice is a no-op, not an error. -/
def handleNoteOff (s : SynthState) (port channel key : Int) : SynthState :=
  { s with
    voices := releaseFirst (releasedState (getParam s.params pmAmpIsGate))
                port channel key s.voices }

/-- One entry of the per-block event timeline §4.2 builds: host note on/off
and parameter events, UI AdjustValue writes (as parameter events at offset 0),
and UI BeginEdit/EndEdit gesture notifications, each keyed by its intra-block
sample offset. -/
inductive InEvent
  | noteOn (time : Nat) (port channel key noteid : Int)
  | noteOff (time : Nat) (port channel key : Int)
  | paramValue (time : Nat) (id : ParamId) (value : PVal)
  | editNotify (time : Nat) (isBegin : Bool) (id : ParamId)
deriving DecidableEq

/-- The sample offset of a timeline entry. -/
def InEvent.time : InEvent → Nat
  | InEvent.noteOn t _ _ _ _ => t
  | InEvent.noteOff t _ _ _ => t
  | InEvent.paramValue t _ _ => t
  | InEvent.editNotify t _ _ => t

/-- Modelled from the spec (§4.2): a queued UI message carries no natural
sample offset and is treated as occurring at offset 0 of the current block —
AdjustValue becomes a parameter-value event, BeginEdit/EndEdit become gesture
notifications forwarded to the host's event-output sink. -/
def fromUIToEvent (m : FromUI) : InEvent :=
  match m.type with
  | FromUIType.ADJUST_VALUE => InEvent.paramValue 0 m.id m.value
  | FromUIType.BEGIN_EDIT => InEvent.editNotify 0 true m.id
  | FromUIType.END_EDIT => InEvent.editNotify 0 false m.id

/-- Modelled from the spec: the merge `process` /
`handleEventsFromUIQueue` perform (polysynth.h lines 168, 174; bodies in the
missing cpp file).  §4.2: host events and queued UI messages are merged into
one timeline; UI messages come first (at offset 0, in queue order), then the
host events in host-provided order. -/
def buildTimeline (uiMsgs : List FromUI) (hostEvents : List InEvent) :
    List InEvent :=
  uiMsgs.map fromUIToEvent ++ hostEvents

/-- Modelled from the spec: the body of
`ConduitPolysynth::handleInboundEvent` (declared polysynth.h line 169) is in
the missing cpp file.  Per §4.2: note-on → activate (and a MIDI_NOTE_ON
`ToUI` message, §3); note-off → release (and MIDI_NOTE_OFF); parameter-value →
write the cell and enqueue a PARAM_VALUE acknowledgement; unknown parameter
identifier → dropped and counted, never fatal (§7 (c)); BeginEdit/EndEdit →
forwarded to the host's event-output sink, no parameter mutation. -/
def handleInboundEvent (steal : SynthState → Nat) (s : SynthState)
    (e : InEvent) : SynthState :=
  match e with
  | InEvent.noteOn _ p c k nid =>
      let s1 := handleNoteOn steal s p c k nid
      { s1 with toUiQ := (tryEnqueue s1.toUiQ ⟨ToUIType.MIDI_NOTE_ON, k.toNat, 0⟩).1 }
  | InEvent.noteOff _ p c k =>
      let s1 := handleNoteOff s p c k
      { s1 with toUiQ := (tryEnqueue s1.toUiQ ⟨ToUIType.MIDI_NOTE_OFF, k.toNat, 0⟩).1 }
  | InEvent.paramValue _ id v =>
      if knownParam s.params id then
        { s with
          params := setParam s.params id v,
          toUiQ := (tryEnqueue s.toUiQ ⟨ToUIType.PARAM_VALUE, id, v⟩).1 }
      else
        { s with droppedEvents := s.droppedEvents + 1 }
  | InEvent.editNotify _ b id =>
      { s with
        outEvents := s.outEvents ++
          [⟨if b then FromUIType.BEGIN_EDIT else FromUIType.END_EDIT, id, 0⟩] }

/-- Process a timeline of events in order (the per-event half of `process`,
§4.2: events are processed in strict non-decreasing sample-offset order, which
for a sorted timeline is list order). -/
def applyEvents (steal : SynthState → Nat) (s : SynthState)
    (es : List InEvent) : SynthState :=
  es.foldl (handleInboundEvent steal) s

/-- A bare sequence of note-on events (port, channel, key, noteId), as used by
the §8 voice-ceiling scenario. -/
abbrev NoteOnEv := Int × Int × Int × Int

/-- The voice a note-on event activates. -/
def toVoice (e : NoteOnEv) : Voice := activatedVoice e.1 e.2.1 e.2.2.1 e.2.2.2

/-- The key of a note-on event. -/
def evKey (e : NoteOnEv) : Int := e.2.2.1

/-- Apply a sequence of note-on events through the allocator. -/
def applyNoteOns (steal : SynthState → Nat) (s : SynthState)
    (es : List NoteOnEv) : SynthState :=
  es.foldl (fun t e => handleNoteOn steal t e.1 e.2.1 e.2.2.1 e.2.2.2) s

/-- Whether a voice takes part in rendering (Active or Releasing, §4.4). -/
def voiceRendering (v : Voice) : Bool := decide (v.state ≠ VoiceState.Idle)

/-- Modelled from the spec: the BlockRenderer half of `process` (§4.4; body in
the missing cpp file).  Each output sample is the sum of the contributions of
all Active/Releasing voices; the per-voice synthesis is the excluded DSP unit,
abstracted as the oracle `dsp`; zero active voices produce silence. -/
def renderBlock (dsp : Voice → Nat → PVal) (vs : List Voice) (nFrames : Nat) :
    List PVal :=
  (List.range nFrames).map (fun n =>
    ((vs.filter voiceRendering).map (fun v => dsp v n)).sum)

/-- Modelled from the spec: `ConduitPolysynth::process` (declared polysynth.h
line 168; body in the missing cpp file).  §2: merge host events and queued UI
messages into one timeline, let the events mutate parameter cells and drive
voice transitions, then render the block.  Sample-accurate splitting of the
render at event boundaries (§4.4) and the Releasing → Idle recycling on the
excluded DSP unit's envelope-completion signal are internal to the opaque DSP
and not observable by any claim settled here. -/
def processBlock (steal : SynthState → Nat) (dsp : Voice → Nat → PVal)
    (s : SynthState) (uiMsgs : List FromUI) (hostEvents : List InEvent)
    (nFrames : Nat) : SynthState × List PVal :=
  let s1 := applyEvents steal s (buildTimeline uiMsgs hostEvents)
  (s1, renderBlock dsp s1.voices nFrames)

/-- The value a single timeline entry writes to the cell of `id`
(`none` when the entry does not write that cell). -/
def paramEventValueFor (id : ParamId) : InEvent → Option PVal
  | InEvent.paramValue _ i v => if i = id then some v else none
  | _ => none

/-- The value of the last parameter-value event for `id` in a timeline
(`none` when the timeline never writes that cell). -/
def lastParamEventValue (id : ParamId) : List InEvent → Option PVal
  | [] => none
  | e :: es => (lastParamEventValue id es).orElse (fun _ => paramEventValueFor id e)

/-- Whether a `ToUI` message is a PARAM_VALUE acknowledgement for `id`. -/
def isParamAckFor (id : ParamId) (m : ToUI) : Bool :=
  decide (m.type = ToUIType.PARAM_VALUE ∧ m.id = id)

/-- Number of PARAM_VALUE acknowledgements for `id` in a message list. -/
def countParamAcks (id : ParamId) (msgs : List ToUI) : Nat :=
  (msgs.filter (isParamAckFor id)).length

/-- Whether a timeline entry writes the cell of `id`. -/
def isParamWriteFor (id : ParamId) (e : InEvent) : Bool :=
  (paramEventValueFor id e).isSome

/-- Number of writes to the cell of `id` a timeline performs. -/
def countParamWrites (id : ParamId) (es : List InEvent) : Nat :=
  (es.filter (isParamWriteFor id)).length

/-- `2^32 = 4294967296`: the modulus of the `uint32_t` field `updateCount`. -/
def UINT32_MOD : Nat := 4294967296

/-- `struct DataCopyForUI` (polysynth.h lines 243–248):
`std::atomic<uint32_t> updateCount`, `std::atomic<bool> isProcessing`,
`std::atomic<int> polyphony`.  `updateCount` is embedded as a `Nat` kept
below `2^32` (uint32 increments wrap). -/
structure DataCopyForUI where
  updateCount : Nat
  isProcessing : Bool
  polyphony : Int
deriving DecidableEq

/-- The member initializers of `DataCopyForUI` (polysynth.h lines 245–247). -/
def initDataCopy : DataCopyForUI :=
  { updateCount := 0, isProcessing := false, polyphony := 0 }

/-- `ConduitPolysynth::startProcessing` (polysynth.h lines 189–194): sets
`isProcessing = true`, increments `updateCount` (uint32, wrapping), and
returns true. -/
def startProcessing (d : DataCopyForUI) : DataCopyForUI × Bool :=
  ({ d with isProcessing := true,
            updateCount := (d.updateCount + 1) % UINT32_MOD }, true)

/-- `ConduitPolysynth::stopProcessing` (polysynth.h lines 195–199): sets
`isProcessing = false` and increments `updateCount` (uint32, wrapping). -/
def stopProcessing (d : DataCopyForUI) : DataCopyForUI :=
  { d with isProcessing := false,
           updateCount := (d.updateCount + 1) % UINT32_MOD }

/-- `CLAP_VOICE_INFO_SUPPORTS_OVERLAPPING_NOTES` (`1 << 0` in the external
clap voice-info extension header, which is not part of these sources). -/
def CLAP_VOICE_INFO_SUPPORTS_OVERLAPPING_NOTES : Nat := 1

/-- `clap_voice_info` as filled in by `voiceInfoGet`. -/
structure ClapVoiceInfo where
  voice_capacity : Nat
  voice_count : Nat
  flags : Nat
deriving DecidableEq

/-- `ConduitPolysynth::voiceInfoGet` (polysynth.h lines 145–151): fills
capacity and count with `max_voices`, sets the overlapping-notes flag, and
returns true. -/
def voiceInfoGet : ClapVoiceInfo × Bool :=
  ({ voice_capacity := max_voices, voice_count := max_voices,
     flags := CLAP_VOICE_INFO_SUPPORTS_OVERLAPPING_NOTES }, true)

/-- `ParamDesc` (from the external `sst` ParamMetadata header, not in these
sources): human metadata for one parameter; `ParamDesc()` default-constructs
every field. -/
structure ParamDesc where
  name : String := ""
  minVal : PVal := 0
  maxVal : PVal := 1
  defaultVal : PVal := 0
deriving DecidableEq

/-- `UICommunicationBundle::getParameterDescription` (polysynth.h lines
261–270): look the id up in `cp.paramDescriptionMap`; if absent return a
default-constructed `ParamDesc`, else return the stored description. -/
def getParameterDescription (paramDescriptionMap : List (ParamId × ParamDesc))
    (id : ParamId) : ParamDesc :=
  match paramDescriptionMap.find? (fun p => p.1 == id) with
  | none => {}
  | some p => p.2

/-- `getParameterDescription` with the synth state passed through explicitly:
the bundle holds only a `const ConduitPolysynth &` (polysynth.h line 273), so
the call leaves the synth state untouched. -/
def getParameterDescriptionSt (paramDescriptionMap : List (ParamId × ParamDesc))
    (s : SynthState) (id : ParamId) : ParamDesc × SynthState :=
  (getParameterDescription paramDescriptionMap id, s)

/-- The pre-allocated pool of 64 voices (polysynth.h line 287). -/
def initVoices : List Voice := List.replicate max_voices initVoice

/-- The synth state at process start: all-Idle pool, empty terminated-voices
log, default parameter cells, empty queues and sinks. -/
def initSynth : SynthState :=
  { voices := initVoices, terminatedVoices := [], params := defaultParams,
    toUiQ := emptyToUIQueue, outEvents := [], droppedEvents := 0 }

/-- The first 64 note-on events of the §8 concrete scenario: distinct keys
0–63 on port 0, channel 0, with noteId = key. -/
def es64w : List NoteOnEv :=
  (List.range 64).map (fun k => ((0 : Int), (0 : Int), (k : Int), (k : Int)))

/-- The 65th note-on event of the §8 concrete scenario: key 64. -/
def e65w : NoteOnEv := ((0 : Int), (0 : Int), (64 : Int), (64 : Int))

/-- A two-voice pool holding one Active voice for (0, 0, 60) and one Idle
slot: the concrete input for the overlapping-notes capability run. -/
def overlapDemoState : SynthState :=
  { voices := [activatedVoice 0 0 60 1, initVoice], terminatedVoices := [],
    params := defaultParams, toUiQ := emptyToUIQueue, outEvents := [],
    droppedEvents := 0 }

/- ————————————————————————————————————————————————————————————————— -/
/- Theorems                                                            -/
/- ————————————————————————————————————————————————————————————————— -/

theorem tryEnqueue_capacity {α : Type} (q : BQueue α) (x : α) :
    (tryEnqueue q x).1.capacity = q.capacity := by
  unfold tryEnqueue
  split <;> rfl

theorem enqueueAll_spec {α : Type} (ms : List α) (q : BQueue α)
    (hq : q.items.length ≤ q.capacity) :
    (enqueueAll q ms).2 =
      List.replicate (min ms.length (q.capacity - q.items.length)) true ++
      List.replicate (ms.length - (q.capacity - q.items.length)) false ∧
    (enqueueAll q ms).1.items =
      q.items ++ ms.take (q.capacity - q.items.length) := by
  induction ms generalizing q with
  | nil =>
      simp [enqueueAll]
  | cons m rest ih =>
      by_cases hfull : q.items.length < q.capacity
      · have hstep : tryEnqueue q m = (⟨q.capacity, q.items ++ [m]⟩, true) := by
          simp [tryEnqueue, hfull]
        have hlen1 : (q.items ++ [m]).length ≤ q.capacity := by
          simp only [List.length_append, List.length_singleton]
          omega
        have ihq := ih (⟨q.capacity, q.items ++ [m]⟩ : BQueue α) hlen1
        constructor
        · show (enqueueAll q (m :: rest)).2 = _
          simp only [enqueueAll, hstep]
          rw [ihq.1]
          simp only [List.length_append, List.length_singleton, List.length_cons]
          have h1 : min (rest.length + 1) (q.capacity - q.items.length)
              = min rest.length (q.capacity - (q.items.length + 1)) + 1 := by
            omega
          have h2 : rest.length + 1 - (q.capacity - q.items.length)
              = rest.length - (q.capacity - (q.items.length + 1)) := by
            omega
          rw [h1, h2]
          rfl
        · show (enqueueAll q (m :: rest)).1.items = _
          simp only [enqueueAll, hstep]
          rw [ihq.2]
          simp only [List.length_append, List.length_singleton]
          have h3 : q.capacity - q.items.length
              = (q.capacity - (q.items.length + 1)) + 1 := by omega
          rw [h3, List.take_succ_cons, List.append_assoc]
          rfl
      · have hk : q.capacity - q.items.length = 0 := by omega
        have hstep : tryEnqueue q m = (q, false) := by
          simp [tryEnqueue, hfull]
        have ihq := ih q hq
        constructor
        · show (enqueueAll q (m :: rest)).2 = _
          simp only [enqueueAll, hstep]
          rw [ihq.1, hk]
          simp only [Nat.min_zero, Nat.sub_zero, List.replicate_zero, List.nil_append,
            List.length_cons, List.replicate_succ]
        · show (enqueueAll q (m :: rest)).1.items = _
          simp only [enqueueAll, hstep]
          rw [ihq.2, hk]
          simp

/-- C5: For the FromUI queue of capacity 4096, enqueueing 5000 messages with no
intervening dequeue makes the first 4096 `tryEnqueue` calls succeed and exactly
the remaining 904 return false; a failed enqueue drops the message (the queue
retains exactly the first 4096 messages) and is never fatal. -/
theorem fromUI_enqueue_5000_first_4096_succeed (ms : List FromUI)
    (hlen : ms.length = 5000) :
    (enqueueAll emptyFromUIQueue ms).2 =
      List.replicate 4096 true ++ List.replicate 904 false ∧
    (enqueueAll emptyFromUIQueue ms).1.items = ms.take 4096 := by
  have h := enqueueAll_spec ms emptyFromUIQueue (by simp [emptyFromUIQueue])
  rw [hlen] at h
  have e1 : emptyFromUIQueue.capacity - emptyFromUIQueue.items.length = 4096 := rfl
  rw [e1] at h
  have e2 : min 5000 4096 = 4096 := by omega
  have e3 : 5000 - 4096 = 904 := by omega
  rw [e2, e3] at h
  have e4 : emptyFromUIQueue.items = [] := rfl
  rw [e4, List.nil_append] at h
  exact h

/-- A concrete run of C5: 5000 identical AdjustValue messages into the empty
capacity-4096 FromUI queue. -/
theorem fromUI_enqueue_5000_witness :
    (List.replicate 5000 (⟨FromUIType.ADJUST_VALUE, pmCutoff, 0⟩ : FromUI)).length
        = 5000 ∧
    (enqueueAll emptyFromUIQueue
        (List.replicate 5000 (⟨FromUIType.ADJUST_VALUE, pmCutoff, 0⟩ : FromUI))).2 =
      List.replicate 4096 true ++ List.replicate 904 false ∧
    (enqueueAll emptyFromUIQueue
        (List.replicate 5000 (⟨FromUIType.ADJUST_VALUE, pmCutoff, 0⟩ : FromUI))).1.items =
      (List.replicate 5000 (⟨FromUIType.ADJUST_VALUE, pmCutoff, 0⟩ : FromUI)).take 4096 :=
  ⟨List.length_replicate 5000 _,
   (fromUI_enqueue_5000_first_4096_succeed _ (List.length_replicate 5000 _)).1,
   (fromUI_enqueue_5000_first_4096_succeed _ (List.length_replicate 5000 _)).2⟩

theorem releaseFirst_no_match (ns : VoiceState) (p c k : Int) :
    ∀ (vs : List Voice), (∀ v ∈ vs, voiceMatches v p c k = false) →
      releaseFirst ns p c k vs = vs := by
  intro vs
  induction vs with
  | nil => intro _; rfl
  | cons v rest ih =>
      intro h
      have hv := h v (List.mem_cons_self v rest)
      simp only [releaseFirst, hv, Bool.false_eq_true, if_false]
      rw [ih (fun w hw => h w (List.mem_cons_of_mem v hw))]

/-- C3: Processing a note-off whose (port, channel, key) identity matches no
currently Active voice is a no-op: every voice and the whole synth state are
unchanged, and no error is raised (the operation is total). -/
theorem handleNoteOff_no_match_noop (s : SynthState) (p c k : Int)
    (h : ∀ v ∈ s.voices, voiceMatches v p c k = false) :
    handleNoteOff s p c k = s := by
  unfold handleNoteOff
  rw [releaseFirst_no_match _ p c k s.voices h]

/-- A concrete run of C3: a note-off for key 60 on the all-Idle initial pool
changes nothing. -/
theorem handleNoteOff_no_match_noop_witness :
    (∀ v ∈ initSynth.voices, voiceMatches v 0 0 60 = false) ∧
    handleNoteOff initSynth 0 0 60 = initSynth :=
  ⟨by decide, handleNoteOff_no_match_noop initSynth 0 0 60 (by decide)⟩

/-- C6: An event referencing a parameter identifier not present in the
parameter table is dropped — no parameter cell, voice state, queue or sink
changes — and the dropped-event counter is incremented; the condition is never
fatal (the handler is total). -/
theorem unknown_param_event_dropped (steal : SynthState → Nat) (s : SynthState)
    (t : Nat) (id : ParamId) (v : PVal)
    (h : knownParam s.params id = false) :
    handleInboundEvent steal s (InEvent.paramValue t id v) =
      { s with droppedEvents := s.droppedEvents + 1 } := by
  simp only [handleInboundEvent, h, Bool.false_eq_true, if_false]

/-- A concrete run of C6: id 5 is not one of the ten parameter ids, so the
event is dropped and counted. -/
theorem unknown_param_event_dropped_witness :
    knownParam initSynth.params 5 = false ∧
    handleInboundEvent (fun _ => 0) initSynth (InEvent.paramValue 0 5 1) =
      { initSynth with droppedEvents := initSynth.droppedEvents + 1 } :=
  ⟨by decide, unknown_param_event_dropped (fun _ => 0) initSynth 0 5 1 (by decide)⟩

theorem updateCount_iterate (n : Nat) :
    (stopProcessing^[n] initDataCopy).updateCount = n % UINT32_MOD := by
  induction n with
  | zero =>
      show (0 : Nat) = 0 % UINT32_MOD
      rw [Nat.zero_mod]
  | succ n ih =>
      rw [Function.iterate_succ_apply']
      show ((stopProcessing^[n] initDataCopy).updateCount + 1) % UINT32_MOD
          = (n + 1) % UINT32_MOD
      rw [ih]
      unfold UINT32_MOD
      omega

theorem startProcessing_updateCount (d : DataCopyForUI) :
    (startProcessing d).1.updateCount = (d.updateCount + 1) % UINT32_MOD := rfl

/-- C8 counterexample: after 2^32 − 1 state-relevant changes the published
`updateCount` equals 2^32 − 1, and the very next `startProcessing` makes it
wrap to 0 — the counter decreases, so "updateCount never decreases" is false
as stated on the uint32 counter the code uses. -/
theorem updateCount_wraps_counterexample :
    (stopProcessing^[UINT32_MOD - 1] initDataCopy).updateCount = UINT32_MOD - 1 ∧
    (startProcessing (stopProcessing^[UINT32_MOD - 1] initDataCopy)).1.updateCount
      < (stopProcessing^[UINT32_MOD - 1] initDataCopy).updateCount := by
  have h := updateCount_iterate (UINT32_MOD - 1)
  have e : (UINT32_MOD - 1) % UINT32_MOD = UINT32_MOD - 1 := by
    unfold UINT32_MOD; omega
  rw [e] at h
  refine ⟨h, ?_⟩
  rw [startProcessing_updateCount, h]
  unfold UINT32_MOD
  omega

/-- C8 as amended: every state-relevant change advances `updateCount` by one
modulo 2^32 — `startProcessing` sets `isProcessing` to true and returns true,
`stopProcessing` sets it to false, each setting `updateCount` to
(old + 1) mod 2^32 and touching nothing else — and the counter strictly
increases (never decreases) as long as it has not yet reached 2^32 − 1. -/
theorem updateCount_step_spec (d : DataCopyForUI) :
    (startProcessing d).2 = true ∧
    (startProcessing d).1.isProcessing = true ∧
    (stopProcessing d).isProcessing = false ∧
    (startProcessing d).1.updateCount = (d.updateCount + 1) % UINT32_MOD ∧
    (stopProcessing d).updateCount = (d.updateCount + 1) % UINT32_MOD ∧
    (startProcessing d).1.polyphony = d.polyphony ∧
    (stopProcessing d).polyphony = d.polyphony ∧
    (d.updateCount + 1 < UINT32_MOD →
      d.updateCount < (startProcessing d).1.updateCount ∧
      d.updateCount < (stopProcessing d).updateCount) := by
  refine ⟨rfl, rfl, rfl, rfl, rfl, rfl, rfl, ?_⟩
  intro h
  have hmod : (d.updateCount + 1) % UINT32_MOD = d.updateCount + 1 :=
    Nat.mod_eq_of_lt h
  constructor
  · show d.updateCount < (d.updateCount + 1) % UINT32_MOD
    rw [hmod]; omega
  · show d.updateCount < (d.updateCount + 1) % UINT32_MOD
    rw [hmod]; omega

/-- A concrete run of the amended C8: one step from the initial snapshot. -/
theorem updateCount_step_spec_witness :
    initDataCopy.updateCount + 1 < UINT32_MOD ∧
    (startProcessing initDataCopy).2 = true ∧
    (startProcessing initDataCopy).1.isProcessing = true ∧
    initDataCopy.updateCount < (startProcessing initDataCopy).1.updateCount :=
  ⟨by decide,
   (updateCount_step_spec initDataCopy).1,
   (updateCount_step_spec initDataCopy).2.1,
   ((updateCount_step_spec initDataCopy).2.2.2.2.2.2.2 (by decide)).1⟩

/-- C10: `getParameterDescription` is total, returns a default-constructed
`ParamDesc` when the id is absent from the description map, and never modifies
the synth state (it reads through a const reference only). -/
theorem getParameterDescription_total (m : List (ParamId × ParamDesc))
    (s : SynthState) (id : ParamId) :
    (getParameterDescriptionSt m s id).2 = s ∧
    ((∀ p ∈ m, p.1 ≠ id) → (getParameterDescriptionSt m s id).1 = {}) ∧
    (∀ d : ParamDesc, (id, d) ∈ m →
      ∃ d' : ParamDesc, (id, d') ∈ m ∧ (getParameterDescriptionSt m s id).1 = d') := by
  refine ⟨rfl, ?_, ?_⟩
  · intro h
    show getParameterDescription m id = {}
    unfold getParameterDescription
    have hnone : m.find? (fun p => p.1 == id) = none := by
      rw [List.find?_eq_none]
      intro p hp
      simpa using h p hp
    rw [hnone]
  · intro d hd
    show ∃ d' : ParamDesc, (id, d') ∈ m ∧ getParameterDescription m id = d'
    have hsome : ∃ p, m.find? (fun p => p.1 == id) = some p := by
      have : (m.find? (fun p => p.1 == id)).isSome := by
        apply List.find?_isSome.mpr
        exact ⟨(id, d), hd, by simp⟩
      exact Option.isSome_iff_exists.mp this
    obtain ⟨p, hp⟩ := hsome
    have hmem := List.mem_of_find?_eq_some hp
    have hpred := List.find?_some hp
    have hid : p.1 = id := by simpa using hpred
    refine ⟨p.2, ?_, ?_⟩
    · have : p = (id, p.2) := by
        cases p with
        | mk a b => cases hid; rfl
      rw [← this]; exact hmem
    · unfold getParameterDescription
      rw [hp]

/-- A concrete run of C10: id 94 is absent from a one-entry description map,
so the default description is returned and the state is untouched. -/
theorem getParameterDescription_total_witness :
    (∀ p ∈ [(pmCutoff, ({} : ParamDesc))], p.1 ≠ 94) ∧
    (getParameterDescriptionSt [(pmCutoff, {})] initSynth 94).2 = initSynth ∧
    (getParameterDescriptionSt [(pmCutoff, {})] initSynth 94).1 = {} :=
  ⟨by decide,
   (getParameterDescription_total [(pmCutoff, {})] initSynth 94).1,
   (getParameterDescription_total [(pmCutoff, {})] initSynth 94).2.1 (by decide)⟩

theorem get?_set_other {α : Type} (x : α) (l : List α) :
    ∀ (i j : Nat), i ≠ j → (l.set i x).get? j = l.get? j := by
  induction l with
  | nil => intro i j _; rfl
  | cons a l ih =>
      intro i j hij
      cases i with
      | zero =>
          cases j with
          | zero => exact absurd rfl hij
          | succ j => rfl
      | succ i =>
          cases j with
          | zero => rfl
          | succ j => exact ih i j (fun e => hij (by rw [e]))

theorem get?_set_self {α : Type} (x : α) (l : List α) :
    ∀ (i : Nat), i < l.length → (l.set i x).get? i = some x := by
  induction l with
  | nil => intro i h; simp at h
  | cons a l ih =>
      intro i h
      cases i with
      | zero => rfl
      | succ i => exact ih i (Nat.lt_of_succ_lt_succ h)

theorem get?_lt_length {α : Type} (l : List α) :
    ∀ (j : Nat) (a : α), l.get? j = some a → j < l.length := by
  induction l with
  | nil =>
      intro j a h
      rw [List.get?_nil] at h
      cases h
  | cons b l ih =>
      intro j a h
      cases j with
      | zero => exact Nat.succ_pos _
      | succ j => exact Nat.succ_lt_succ (ih j a h)

theorem firstIdleIdx_idle : ∀ (vs : List Voice) (j : Nat),
    firstIdleIdx vs = some j →
    ∃ u, vs.get? j = some u ∧ u.state = VoiceState.Idle := by
  intro vs
  induction vs with
  | nil => intro j h; cases h
  | cons v rest ih =>
      intro j h
      by_cases hv : v.state = VoiceState.Idle
      · simp only [firstIdleIdx, if_pos hv] at h
        cases h
        exact ⟨v, rfl, hv⟩
      · simp only [firstIdleIdx, if_neg hv] at h
        cases hf : firstIdleIdx rest with
        | none => rw [hf] at h; cases h
        | some j' =>
            rw [hf] at h
            have hj : j = j' + 1 := by
              have h' : some (j' + 1) = some j := h
              cases h'; rfl
            obtain ⟨u, hu, hs⟩ := ih j' hf
            refine ⟨u, ?_, hs⟩
            rw [hj]
            exact hu

theorem firstIdleIdx_of_mem_idle : ∀ (vs : List Voice),
    (∃ w ∈ vs, w.state = VoiceState.Idle) →
    ∃ j, firstIdleIdx vs = some j := by
  intro vs
  induction vs with
  | nil =>
      intro h
      obtain ⟨w, hw, _⟩ := h
      cases hw
  | cons v rest ih =>
      intro h
      obtain ⟨w, hw, hs⟩ := h
      by_cases hv : v.state = VoiceState.Idle
      · exact ⟨0, by simp only [firstIdleIdx, if_pos hv]⟩
      · have hwr : w ∈ rest := by
          cases List.mem_cons.mp hw with
          | inl e => rw [e] at hs; exact absurd hs hv
          | inr h' => exact h'
        obtain ⟨j, hj⟩ := ih ⟨w, hwr, hs⟩
        refine ⟨j + 1, ?_⟩
        simp only [firstIdleIdx, if_neg hv, hj]
        rfl

/-- C9: The capability advertisement matches the data-model invariants:
`voiceInfoGet` returns true, reports a maximum simultaneous voice count equal
to the fixed pool size of 64, and sets the overlapping-notes flag — and the
allocator indeed permits a second independent Active voice for an
already-claimed (port, channel, key) identity, disambiguated by note-id. -/
theorem capability_matches_voice_invariants (steal : SynthState → Nat)
    (s : SynthState) (i : Nat) (p c k id1 id2 : Int)
    (hv : s.voices.get? i = some (activatedVoice p c k id1))
    (hidle : ∃ w ∈ s.voices, w.state = VoiceState.Idle) :
    voiceInfoGet.2 = true ∧
    voiceInfoGet.1.voice_capacity = max_voices ∧
    voiceInfoGet.1.voice_count = max_voices ∧
    voiceInfoGet.1.flags = CLAP_VOICE_INFO_SUPPORTS_OVERLAPPING_NOTES ∧
    initSynth.voices.length = max_voices ∧
    (∃ j, j ≠ i ∧
      (handleNoteOn steal s p c k id2).voices.get? i
          = some (activatedVoice p c k id1) ∧
      (handleNoteOn steal s p c k id2).voices.get? j
          = some (activatedVoice p c k id2)) := by
  refine ⟨rfl, rfl, rfl, rfl, by simp [initSynth, initVoices], ?_⟩
  obtain ⟨j, hj⟩ := firstIdleIdx_of_mem_idle s.voices hidle
  obtain ⟨u, hu, hus⟩ := firstIdleIdx_idle s.voices j hj
  have hne : j ≠ i := by
    intro e
    rw [e, hv] at hu
    have h' : activatedVoice p c k id1 = u := by
      cases hu; rfl
    rw [← h'] at hus
    simp [activatedVoice] at hus
  have hlt : j < s.voices.length := get?_lt_length s.voices j u hu
  refine ⟨j, hne, ?_, ?_⟩
  · simp only [handleNoteOn, hj]
    rw [get?_set_other _ s.voices j i hne]
    exact hv
  · simp only [handleNoteOn, hj]
    exact get?_set_self _ s.voices j hlt

/-- A concrete run of C9: a second note-on for the already-claimed identity
(0, 0, 60) with a fresh note-id 2 creates a second independent Active voice
next to the first. -/
theorem capability_matches_voice_invariants_witness :
    overlapDemoState.voices.get? 0 = some (activatedVoice 0 0 60 1) ∧
    (∃ w ∈ overlapDemoState.voices, w.state = VoiceState.Idle) ∧
    (voiceInfoGet.2 = true ∧
     voiceInfoGet.1.voice_capacity = max_voices ∧
     voiceInfoGet.1.voice_count = max_voices ∧
     voiceInfoGet.1.flags = CLAP_VOICE_INFO_SUPPORTS_OVERLAPPING_NOTES ∧
     initSynth.voices.length = max_voices ∧
     (∃ j, j ≠ 0 ∧
       (handleNoteOn (fun _ => 0) overlapDemoState 0 0 60 2).voices.get? 0
           = some (activatedVoice 0 0 60 1) ∧
       (handleNoteOn (fun _ => 0) overlapDemoState 0 0 60 2).voices.get? j
           = some (activatedVoice 0 0 60 2))) :=
  ⟨rfl, by decide,
   capability_matches_voice_invariants (fun _ => 0) overlapDemoState 0 0 0 60 1 2
     rfl (by decide)⟩

theorem get?_eq_some_getD {α : Type} (d : α) (l : List α) :
    ∀ (j : Nat), j < l.length → l.get? j = some (l.getD j d) := by
  induction l with
  | nil => intro j h; simp at h
  | cons a l ih =>
      intro j h
      cases j with
      | zero => rfl
      | succ j => exact ih j (Nat.lt_of_succ_lt_succ h)

theorem firstIdleIdx_append_idle :
    ∀ (pre : List Voice) (w : Voice) (l : List Voice),
      (∀ v ∈ pre, v.state ≠ VoiceState.Idle) → w.state = VoiceState.Idle →
      firstIdleIdx (pre ++ w :: l) = some pre.length := by
  intro pre
  induction pre with
  | nil =>
      intro w l _ hw
      simp only [List.nil_append, firstIdleIdx, if_pos hw]
      rfl
  | cons a pre ih =>
      intro w l hp hw
      have ha : ¬ a.state = VoiceState.Idle := hp a (List.mem_cons_self a pre)
      have hih := ih w l (fun v hv => hp v (List.mem_cons_of_mem a hv)) hw
      show firstIdleIdx (a :: (pre ++ w :: l)) = some (pre.length + 1)
      simp only [firstIdleIdx, if_neg ha, hih]
      rfl

theorem firstIdleIdx_none_of_no_idle : ∀ (vs : List Voice),
    (∀ v ∈ vs, v.state ≠ VoiceState.Idle) → firstIdleIdx vs = none := by
  intro vs
  induction vs with
  | nil => intro _; rfl
  | cons v rest ih =>
      intro h
      simp only [firstIdleIdx, if_neg (h v (List.mem_cons_self v rest)),
        ih (fun w hw => h w (List.mem_cons_of_mem v hw))]
      rfl

theorem set_append_cons {α : Type} (x : α) :
    ∀ (pre : List α) (w : α) (l : List α),
      (pre ++ w :: l).set pre.length x = pre ++ x :: l := by
  intro pre
  induction pre with
  | nil => intro w l; rfl
  | cons a pre ih =>
      intro w l
      show a :: (pre ++ w :: l).set pre.length x = a :: (pre ++ x :: l)
      rw [ih w l]

theorem applyNoteOns_fill (steal : SynthState → Nat) :
    ∀ (es : List NoteOnEv) (s : SynthState) (pre : List Voice) (rest : Nat),
      s.voices = pre ++ List.replicate rest initVoice →
      (∀ v ∈ pre, v.state ≠ VoiceState.Idle) →
      es.length ≤ rest →
      applyNoteOns steal s es =
        { s with voices := pre ++ (es.map toVoice ++
            List.replicate (rest - es.length) initVoice) } := by
  intro es
  induction es with
  | nil =>
      intro s pre rest hv _ _
      simp only [applyNoteOns, List.foldl_nil, List.map_nil, List.nil_append,
        List.length_nil, Nat.sub_zero]
      rw [← hv]
  | cons e es ih =>
      intro s pre rest hv hp hl
      cases rest with
      | zero =>
          rw [List.length_cons] at hl
          omega
      | succ r =>
          have hfi : firstIdleIdx s.voices = some pre.length := by
            rw [hv, List.replicate_succ]
            exact firstIdleIdx_append_idle pre initVoice _ hp rfl
          have hstep : handleNoteOn steal s e.1 e.2.1 e.2.2.1 e.2.2.2 =
              { s with voices := pre ++ toVoice e :: List.replicate r initVoice } := by
            simp only [handleNoteOn, hfi]
            rw [hv, List.replicate_succ, set_append_cons]
            rfl
          have hfold : applyNoteOns steal s (e :: es) =
              applyNoteOns steal (handleNoteOn steal s e.1 e.2.1 e.2.2.1 e.2.2.2) es := by
            rfl
          rw [hfold, hstep]
          have hv' : ({ s with voices := pre ++ toVoice e :: List.replicate r initVoice} : SynthState).voices
              = (pre ++ [toVoice e]) ++ List.replicate r initVoice := by
            simp
          have hp' : ∀ v ∈ pre ++ [toVoice e], v.state ≠ VoiceState.Idle := by
            intro v hvm
            rcases List.mem_append.mp hvm with h1 | h2
            · exact hp v h1
            · rw [List.mem_singleton] at h2
              rw [h2]
              simp [toVoice, activatedVoice]
          have hl' : es.length ≤ r := by
            rw [List.length_cons] at hl
            omega
          rw [ih _ (pre ++ [toVoice e]) r hv' hp' hl']
          simp only [List.length_cons, Nat.succ_sub_succ, List.map_cons]
          congr 1
          simp

/-- C1: From the all-Idle pool of 64 voices, 64 note-ons with distinct keys
each claim a distinct slot — after them every pool slot is Active, the voices
are pairwise distinct, and nothing has been stolen.  The 65th note-on finds no
Idle slot and steals an existing voice (any slot, per the non-deterministic
victim policy modelled by `steal`): the pool stays at size 64, exactly one
(port, channel, key, noteId) record — the stolen voice's identity — is
appended to the terminated-voices log, the newly requested key becomes Active
in the slot formerly holding the stolen voice, and every other slot is
untouched. -/
theorem noteOns_fill_then_steal (steal : SynthState → Nat)
    (es64 : List NoteOnEv) (e : NoteOnEv)
    (h64 : es64.length = 64)
    (hkeys : ((es64 ++ [e]).map evKey).Nodup) :
    (applyNoteOns steal initSynth es64).voices = es64.map toVoice ∧
    (applyNoteOns steal initSynth es64).voices.length = 64 ∧
    (∀ v ∈ (applyNoteOns steal initSynth es64).voices,
        v.state = VoiceState.Active) ∧
    (applyNoteOns steal initSynth es64).voices.Nodup ∧
    (applyNoteOns steal initSynth es64).terminatedVoices = [] ∧
    (applyNoteOns steal initSynth (es64 ++ [e])).voices.length = 64 ∧
    ∃ j < 64, ∃ v : Voice,
      (applyNoteOns steal initSynth es64).voices.get? j = some v ∧
      (applyNoteOns steal initSynth (es64 ++ [e])).terminatedVoices =
        [(v.portid, v.channel, v.key, v.note_id)] ∧
      (applyNoteOns steal initSynth (es64 ++ [e])).voices.get? j
          = some (toVoice e) ∧
      ∀ i, i ≠ j →
        (applyNoteOns steal initSynth (es64 ++ [e])).voices.get? i
            = (applyNoteOns steal initSynth es64).voices.get? i := by
  have hinit : initSynth.voices = [] ++ List.replicate 64 initVoice := by
    simp [initSynth, initVoices, max_voices]
  have hpre : ∀ v ∈ ([] : List Voice), v.state ≠ VoiceState.Idle := by
    intro v hv
    cases hv
  have hfill := applyNoteOns_fill steal es64 initSynth [] 64 hinit hpre (by omega)
  have hvoices : (applyNoteOns steal initSynth es64).voices = es64.map toVoice := by
    rw [hfill]
    simp [h64]
  have hterm : (applyNoteOns steal initSynth es64).terminatedVoices = [] := by
    rw [hfill]
    simp [initSynth]
  have hlen : (applyNoteOns steal initSynth es64).voices.length = 64 := by
    rw [hvoices, List.length_map, h64]
  have hactive : ∀ v ∈ (applyNoteOns steal initSynth es64).voices,
      v.state = VoiceState.Active := by
    rw [hvoices]
    intro v hv
    obtain ⟨a, _, rfl⟩ := List.mem_map.mp hv
    rfl
  have hnodup : (applyNoteOns steal initSynth es64).voices.Nodup := by
    rw [hvoices]
    have hmap : (es64 ++ [e]).map evKey = es64.map evKey ++ [evKey e] :=
      List.map_append evKey es64 [e]
    rw [hmap] at hkeys
    have hk64 : (es64.map evKey).Nodup := List.Nodup.of_append_left hkeys
    have hkk : ((es64.map toVoice).map Voice.key).Nodup := by
      rw [List.map_map]
      exact hk64
    exact List.Nodup.of_map Voice.key hkk
  have hnone : firstIdleIdx (applyNoteOns steal initSynth es64).voices = none := by
    apply firstIdleIdx_none_of_no_idle
    intro v hv
    rw [hactive v hv]
    simp
  have hsplit : applyNoteOns steal initSynth (es64 ++ [e])
      = handleNoteOn steal (applyNoteOns steal initSynth es64)
          e.1 e.2.1 e.2.2.1 e.2.2.2 := by
    unfold applyNoteOns
    rw [List.foldl_append]
    rfl
  have hstep : applyNoteOns steal initSynth (es64 ++ [e]) =
      { (applyNoteOns steal initSynth es64) with
        voices := (applyNoteOns steal initSynth es64).voices.set
          (steal (applyNoteOns steal initSynth es64) % 64)
          (activatedVoice e.1 e.2.1 e.2.2.1 e.2.2.2),
        terminatedVoices :=
          (applyNoteOns steal initSynth es64).terminatedVoices ++
            [(((applyNoteOns steal initSynth es64).voices.getD
                  (steal (applyNoteOns steal initSynth es64) % 64) initVoice).portid,
              ((applyNoteOns steal initSynth es64).voices.getD
                  (steal (applyNoteOns steal initSynth es64) % 64) initVoice).channel,
              ((applyNoteOns steal initSynth es64).voices.getD
                  (steal (applyNoteOns steal initSynth es64) % 64) initVoice).key,
              ((applyNoteOns steal initSynth es64).voices.getD
                  (steal (applyNoteOns steal initSynth es64) % 64) initVoice).note_id)] } := by
    rw [hsplit]
    simp only [handleNoteOn, hnone, hlen]
  have hjlt : steal (applyNoteOns steal initSynth es64) % 64 < 64 :=
    Nat.mod_lt _ (by omega)
  have hjlt' : steal (applyNoteOns steal initSynth es64) % 64
      < (applyNoteOns steal initSynth es64).voices.length := by
    rw [hlen]
    exact hjlt
  refine ⟨hvoices, hlen, hactive, hnodup, hterm, ?_, ?_⟩
  · rw [hstep]
    simp only [List.length_set]
    exact hlen
  refine ⟨steal (applyNoteOns steal initSynth es64) % 64, hjlt,
    (applyNoteOns steal initSynth es64).voices.getD
      (steal (applyNoteOns steal initSynth es64) % 64) initVoice,
    get?_eq_some_getD initVoice _ _ hjlt', ?_, ?_, ?_⟩
  · rw [hstep]
    simp only [hterm, List.nil_append]
  · rw [hstep]
    exact get?_set_self _ _ _ hjlt'
  · intro i hi
    rw [hstep]
    exact get?_set_other _ _ _ i (fun ee => hi ee.symm)

/-- A concrete run of C1: the §8 scenario with keys 0–63 filling the pool and
key 64 stealing, victim policy "always slot 0". -/
theorem noteOns_fill_then_steal_witness :
    es64w.length = 64 ∧
    ((es64w ++ [e65w]).map evKey).Nodup ∧
    ((applyNoteOns (fun _ => 0) initSynth es64w).voices = es64w.map toVoice ∧
     (applyNoteOns (fun _ => 0) initSynth es64w).voices.length = 64 ∧
     (∀ v ∈ (applyNoteOns (fun _ => 0) initSynth es64w).voices,
         v.state = VoiceState.Active) ∧
     (applyNoteOns (fun _ => 0) initSynth es64w).voices.Nodup ∧
     (applyNoteOns (fun _ => 0) initSynth es64w).terminatedVoices = [] ∧
     (applyNoteOns (fun _ => 0) initSynth (es64w ++ [e65w])).voices.length = 64 ∧
     ∃ j < 64, ∃ v : Voice,
       (applyNoteOns (fun _ => 0) initSynth es64w).voices.get? j = some v ∧
       (applyNoteOns (fun _ => 0) initSynth (es64w ++ [e65w])).terminatedVoices =
         [(v.portid, v.channel, v.key, v.note_id)] ∧
       (applyNoteOns (fun _ => 0) initSynth (es64w ++ [e65w])).voices.get? j
           = some (toVoice e65w) ∧
       ∀ i, i ≠ j →
         (applyNoteOns (fun _ => 0) initSynth (es64w ++ [e65w])).voices.get? i
             = (applyNoteOns (fun _ => 0) initSynth es64w).voices.get? i) :=
  ⟨by decide, by decide,
   noteOns_fill_then_steal (fun _ => 0) es64w e65w (by decide) (by decide)⟩

theorem fromUIToEvent_time (m : FromUI) : (fromUIToEvent m).time = 0 := by
  cases h : m.type <;> simp [fromUIToEvent, h, InEvent.time]

theorem uiEvents_pairwise (l : List FromUI) :
    (l.map fromUIToEvent).Pairwise (fun a b => a.time ≤ b.time) := by
  induction l with
  | nil => exact List.Pairwise.nil
  | cons m l ih =>
      rw [List.map_cons]
      refine List.Pairwise.cons ?_ ih
      intro b _
      rw [fromUIToEvent_time m]
      exact Nat.zero_le _

/-- C4: In the merged per-block timeline, all queued UI-originated messages
come first — converted to events at sample offset 0, in queue order — followed
by the host events in host-provided order; when the host events arrive in
non-decreasing sample-offset order the whole timeline is in non-decreasing
sample-offset order, and events at equal offsets keep their relative input
order (the timeline is literally UI prefix ++ host suffix, both
order-preserving). -/
theorem timeline_merge_order (uiMsgs : List FromUI) (hostEvents : List InEvent)
    (hsorted : hostEvents.Pairwise (fun a b => a.time ≤ b.time)) :
    (buildTimeline uiMsgs hostEvents).take uiMsgs.length
        = uiMsgs.map fromUIToEvent ∧
    (buildTimeline uiMsgs hostEvents).drop uiMsgs.length = hostEvents ∧
    (∀ m ∈ uiMsgs, (fromUIToEvent m).time = 0) ∧
    (buildTimeline uiMsgs hostEvents).Pairwise (fun a b => a.time ≤ b.time) := by
  refine ⟨?_, ?_, ?_, ?_⟩
  · unfold buildTimeline
    rw [← List.length_map uiMsgs fromUIToEvent, List.take_left]
  · unfold buildTimeline
    rw [← List.length_map uiMsgs fromUIToEvent, List.drop_left]
  · intro m _
    exact fromUIToEvent_time m
  · unfold buildTimeline
    rw [List.pairwise_append]
    refine ⟨uiEvents_pairwise uiMsgs, hsorted, ?_⟩
    intro a ha b _
    obtain ⟨m, _, rfl⟩ := List.mem_map.mp ha
    rw [fromUIToEvent_time m]
    exact Nat.zero_le _

/-- A concrete run of C4: one queued AdjustValue message merged ahead of a
note-on at offset 0 and a parameter event at offset 5. -/
theorem timeline_merge_order_witness :
    ([InEvent.noteOn 0 0 0 60 1, InEvent.paramValue 5 pmCutoff 2].Pairwise
        (fun a b => a.time ≤ b.time)) ∧
    ((buildTimeline [⟨FromUIType.ADJUST_VALUE, pmCutoff, 1⟩]
        [InEvent.noteOn 0 0 0 60 1, InEvent.paramValue 5 pmCutoff 2]).take 1
          = [⟨FromUIType.ADJUST_VALUE, pmCutoff, 1⟩].map fromUIToEvent ∧
     (buildTimeline [⟨FromUIType.ADJUST_VALUE, pmCutoff, 1⟩]
        [InEvent.noteOn 0 0 0 60 1, InEvent.paramValue 5 pmCutoff 2]).drop 1
          = [InEvent.noteOn 0 0 0 60 1, InEvent.paramValue 5 pmCutoff 2] ∧
     (∀ m ∈ [(⟨FromUIType.ADJUST_VALUE, pmCutoff, 1⟩ : FromUI)],
         (fromUIToEvent m).time = 0) ∧
     (buildTimeline [⟨FromUIType.ADJUST_VALUE, pmCutoff, 1⟩]
        [InEvent.noteOn 0 0 0 60 1, InEvent.paramValue 5 pmCutoff 2]).Pairwise
          (fun a b => a.time ≤ b.time)) :=
  ⟨by decide,
   timeline_merge_order [⟨FromUIType.ADJUST_VALUE, pmCutoff, 1⟩]
     [InEvent.noteOn 0 0 0 60 1, InEvent.paramValue 5 pmCutoff 2] (by decide)⟩

theorem renderBlock_silence (dsp : Voice → Nat → PVal) (vs : List Voice)
    (n : Nat) (h : ∀ v ∈ vs, v.state = VoiceState.Idle) :
    renderBlock dsp vs n = List.replicate n 0 := by
  have hfil : vs.filter voiceRendering = [] := by
    rw [List.filter_eq_nil_iff]
    intro v hv
    simp [voiceRendering, h v hv]
  unfold renderBlock
  rw [hfil]
  simp only [List.map_nil, List.sum_nil]
  rw [List.map_const', List.length_range]

/-- C7: Processing a block whose merged event timeline is empty leaves the
whole synth state — every voice and every parameter cell — exactly as before
the call, and when no voice is Active or Releasing (all Idle) the output
buffer is all zeros, for every per-voice DSP oracle. -/
theorem empty_timeline_block_noop (steal : SynthState → Nat)
    (dsp : Voice → Nat → PVal) (s : SynthState) (n : Nat) :
    (processBlock steal dsp s [] [] n).1 = s ∧
    ((∀ v ∈ s.voices, v.state = VoiceState.Idle) →
      (processBlock steal dsp s [] [] n).2 = List.replicate n 0) := by
  constructor
  · rfl
  · intro h
    exact renderBlock_silence dsp s.voices n h

/-- A concrete run of C7: a 4-sample block with no events on the initial
all-Idle state. -/
theorem empty_timeline_block_noop_witness :
    (∀ v ∈ initSynth.voices, v.state = VoiceState.Idle) ∧
    (processBlock (fun _ => 0) (fun _ _ => 1) initSynth [] [] 4).1 = initSynth ∧
    (processBlock (fun _ => 0) (fun _ _ => 1) initSynth [] [] 4).2
        = List.replicate 4 0 :=
  ⟨by decide,
   (empty_timeline_block_noop (fun _ => 0) (fun _ _ => 1) initSynth 4).1,
   (empty_timeline_block_noop (fun _ => 0) (fun _ _ => 1) initSynth 4).2 (by decide)⟩

theorem knownParam_setParam (i : ParamId) (v : PVal) (id : ParamId) :
    ∀ (ps : List (ParamId × PVal)),
      knownParam (setParam ps i v) id = knownParam ps id := by
  intro ps
  induction ps with
  | nil => rfl
  | cons p ps ih =>
      show ((if p.1 = i then (i, v) else p) :: setParam ps i v).any
            (fun q => q.1 == id)
          = (p :: ps).any (fun q => q.1 == id)
      rw [List.any_cons, List.any_cons]
      have hih : (setParam ps i v).any (fun q => q.1 == id)
          = ps.any (fun q => q.1 == id) := ih
      rw [hih]
      by_cases hp : p.1 = i
      · rw [if_pos hp, hp]
      · rw [if_neg hp]

theorem getParam_cons_pos (p : ParamId × PVal) (ps : List (ParamId × PVal))
    (id : ParamId) (h : (p.1 == id) = true) :
    getParam (p :: ps) id = p.2 := by
  have hf : List.find? (fun q : ParamId × PVal => q.1 == id) (p :: ps) = some p :=
    List.find?_cons_of_pos ps h
  unfold getParam
  rw [hf]

theorem getParam_cons_neg (p : ParamId × PVal) (ps : List (ParamId × PVal))
    (id : ParamId) (h : (p.1 == id) = false) :
    getParam (p :: ps) id = getParam ps id := by
  have hf : List.find? (fun q : ParamId × PVal => q.1 == id) (p :: ps)
      = List.find? (fun q : ParamId × PVal => q.1 == id) ps :=
    List.find?_cons_of_neg ps (by simp [h])
  unfold getParam
  rw [hf]

theorem setParam_cons_pos (p : ParamId × PVal) (ps : List (ParamId × PVal))
    (i : ParamId) (v : PVal) (h : p.1 = i) :
    setParam (p :: ps) i v = (i, v) :: setParam ps i v := by
  show (if p.1 = i then (i, v) else p) :: setParam ps i v = _
  rw [if_pos h]

theorem setParam_cons_neg (p : ParamId × PVal) (ps : List (ParamId × PVal))
    (i : ParamId) (v : PVal) (h : ¬ p.1 = i) :
    setParam (p :: ps) i v = p :: setParam ps i v := by
  show (if p.1 = i then (i, v) else p) :: setParam ps i v = _
  rw [if_neg h]

theorem getParam_setParam_self (i : ParamId) (v : PVal) :
    ∀ (ps : List (ParamId × PVal)), knownParam ps i = true →
      getParam (setParam ps i v) i = v := by
  intro ps
  induction ps with
  | nil => intro h; cases h
  | cons p ps ih =>
      intro h
      by_cases hp : p.1 = i
      · rw [setParam_cons_pos p ps i v hp]
        rw [getParam_cons_pos (i, v) _ i (by simp)]
      · rw [setParam_cons_neg p ps i v hp]
        have hne : (p.1 == i) = false := by
          simp [hp]
        rw [getParam_cons_neg p _ i hne]
        apply ih
        have h' := h
        rw [knownParam, List.any_cons, hne] at h'
        simpa [knownParam] using h'

theorem getParam_setParam_other (i id : ParamId) (hne : i ≠ id) (v : PVal) :
    ∀ (ps : List (ParamId × PVal)),
      getParam (setParam ps i v) id = getParam ps id := by
  intro ps
  induction ps with
  | nil => rfl
  | cons p ps ih =>
      by_cases hp : p.1 = i
      · rw [setParam_cons_pos p ps i v hp]
        have h1 : ((i, v).1 == id) = false := by
          simp
          exact hne
        have h2 : (p.1 == id) = false := by
          rw [hp]
          simp
          exact hne
        rw [getParam_cons_neg _ _ _ h1, getParam_cons_neg _ _ _ h2, ih]
      · rw [setParam_cons_neg p ps i v hp]
        by_cases hq : (p.1 == id) = true
        · rw [getParam_cons_pos _ _ _ hq, getParam_cons_pos _ _ _ hq]
        · have hq' : (p.1 == id) = false := by
            cases hb : (p.1 == id) with
            | true => exact absurd hb hq
            | false => rfl
          rw [getParam_cons_neg _ _ _ hq', getParam_cons_neg _ _ _ hq', ih]

theorem countParamAcks_append (id : ParamId) (l1 l2 : List ToUI) :
    countParamAcks id (l1 ++ l2)
      = countParamAcks id l1 + countParamAcks id l2 := by
  unfold countParamAcks
  rw [List.filter_append, List.length_append]

theorem tryEnqueue_items_length {α : Type} (q : BQueue α) (x : α) :
    (tryEnqueue q x).1.items.length ≤ q.items.length + 1 := by
  unfold tryEnqueue
  split
  · show (q.items ++ [x]).length ≤ q.items.length + 1
    rw [List.length_append, List.length_singleton]
  · show q.items.length ≤ q.items.length + 1
    omega

theorem countParamAcks_tryEnqueue_other (id : ParamId) (q : BQueue ToUI)
    (m : ToUI) (h : isParamAckFor id m = false) :
    countParamAcks id (tryEnqueue q m).1.items = countParamAcks id q.items := by
  unfold tryEnqueue
  split
  · show countParamAcks id (q.items ++ [m]) = countParamAcks id q.items
    rw [countParamAcks_append]
    have h0 : countParamAcks id [m] = 0 := by
      unfold countParamAcks
      rw [List.filter_cons, h]
      rfl
    omega
  · rfl

theorem countParamAcks_tryEnqueue_ack (id : ParamId) (q : BQueue ToUI)
    (m : ToUI) (hm : isParamAckFor id m = true)
    (hroom : q.items.length < q.capacity) :
    countParamAcks id (tryEnqueue q m).1.items
      = countParamAcks id q.items + 1 := by
  unfold tryEnqueue
  rw [if_pos hroom]
  show countParamAcks id (q.items ++ [m]) = countParamAcks id q.items + 1
  rw [countParamAcks_append]
  have h1 : countParamAcks id [m] = 1 := by
    unfold countParamAcks
    rw [List.filter_cons, hm]
    rfl
  rw [h1]

theorem handleNoteOn_other_fields (steal : SynthState → Nat) (s : SynthState)
    (p c k nid : Int) :
    (handleNoteOn steal s p c k nid).params = s.params ∧
    (handleNoteOn steal s p c k nid).toUiQ = s.toUiQ := by
  unfold handleNoteOn
  cases firstIdleIdx s.voices <;> exact ⟨rfl, rfl⟩

theorem getD_lastParamEventValue_cons (id : ParamId) (e : InEvent)
    (es : List InEvent) (d : PVal) :
    (lastParamEventValue id (e :: es)).getD d
      = (lastParamEventValue id es).getD ((paramEventValueFor id e).getD d) := by
  show ((lastParamEventValue id es).orElse
      (fun _ => paramEventValueFor id e)).getD d = _
  cases lastParamEventValue id es <;> rfl

theorem countParamWrites_cons (id : ParamId) (e : InEvent) (es : List InEvent) :
    countParamWrites id (e :: es)
      = (if isParamWriteFor id e then 1 else 0) + countParamWrites id es := by
  unfold countParamWrites
  rw [List.filter_cons]
  by_cases hw : isParamWriteFor id e
  · rw [if_pos hw, if_pos hw, List.length_cons]
    omega
  · rw [if_neg hw, if_neg hw]
    omega

theorem handleInboundEvent_param_step (steal : SynthState → Nat) (id : ParamId)
    (s : SynthState) (e : InEvent)
    (hknown : knownParam s.params id = true)
    (hroom : s.toUiQ.items.length < s.toUiQ.capacity) :
    knownParam (handleInboundEvent steal s e).params id = true ∧
    (handleInboundEvent steal s e).toUiQ.capacity = s.toUiQ.capacity ∧
    (handleInboundEvent steal s e).toUiQ.items.length
        ≤ s.toUiQ.items.length + 1 ∧
    getParam (handleInboundEvent steal s e).params id
        = (paramEventValueFor id e).getD (getParam s.params id) ∧
    countParamAcks id (handleInboundEvent steal s e).toUiQ.items
        = countParamAcks id s.toUiQ.items
            + (if isParamWriteFor id e then 1 else 0) := by
  cases e with
  | noteOn t p c k nid =>
      obtain ⟨hp1, hq1⟩ := handleNoteOn_other_fields steal s p c k nid
      refine ⟨?_, ?_, ?_, ?_, ?_⟩
      · show knownParam (handleNoteOn steal s p c k nid).params id = true
        rw [hp1]
        exact hknown
      · show (tryEnqueue (handleNoteOn steal s p c k nid).toUiQ
            ⟨ToUIType.MIDI_NOTE_ON, k.toNat, 0⟩).1.capacity = s.toUiQ.capacity
        rw [tryEnqueue_capacity, hq1]
      · show (tryEnqueue (handleNoteOn steal s p c k nid).toUiQ
            ⟨ToUIType.MIDI_NOTE_ON, k.toNat, 0⟩).1.items.length
              ≤ s.toUiQ.items.length + 1
        rw [hq1]
        exact tryEnqueue_items_length s.toUiQ _
      · show getParam (handleNoteOn steal s p c k nid).params id
            = (paramEventValueFor id (InEvent.noteOn t p c k nid)).getD
                (getParam s.params id)
        rw [hp1]
        rfl
      · show countParamAcks id (tryEnqueue (handleNoteOn steal s p c k nid).toUiQ
            ⟨ToUIType.MIDI_NOTE_ON, k.toNat, 0⟩).1.items
            = countParamAcks id s.toUiQ.items
                + (if isParamWriteFor id (InEvent.noteOn t p c k nid) then 1 else 0)
        rw [countParamAcks_tryEnqueue_other id (handleNoteOn steal s p c k nid).toUiQ
          ⟨ToUIType.MIDI_NOTE_ON, k.toNat, 0⟩ (by rfl), hq1]
        rfl
  | noteOff t p c k =>
      refine ⟨hknown, ?_, ?_, rfl, ?_⟩
      · show (tryEnqueue (handleNoteOff s p c k).toUiQ
            ⟨ToUIType.MIDI_NOTE_OFF, k.toNat, 0⟩).1.capacity = s.toUiQ.capacity
        rw [tryEnqueue_capacity]
        rfl
      · show (tryEnqueue (handleNoteOff s p c k).toUiQ
            ⟨ToUIType.MIDI_NOTE_OFF, k.toNat, 0⟩).1.items.length
              ≤ s.toUiQ.items.length + 1
        exact tryEnqueue_items_length s.toUiQ _
      · show countParamAcks id (tryEnqueue (handleNoteOff s p c k).toUiQ
            ⟨ToUIType.MIDI_NOTE_OFF, k.toNat, 0⟩).1.items
            = countParamAcks id s.toUiQ.items
                + (if isParamWriteFor id (InEvent.noteOff t p c k) then 1 else 0)
        rw [countParamAcks_tryEnqueue_other id (handleNoteOff s p c k).toUiQ
          ⟨ToUIType.MIDI_NOTE_OFF, k.toNat, 0⟩ (by rfl)]
        rfl
  | paramValue t i v =>
      by_cases hi : knownParam s.params i = true
      · have hred : handleInboundEvent steal s (InEvent.paramValue t i v)
            = { s with params := setParam s.params i v,
                       toUiQ := (tryEnqueue s.toUiQ ⟨ToUIType.PARAM_VALUE, i, v⟩).1 } := by
          simp only [handleInboundEvent, hi, if_true]
        rw [hred]
        refine ⟨?_, ?_, ?_, ?_, ?_⟩
        · show knownParam (setParam s.params i v) id = true
          rw [knownParam_setParam]
          exact hknown
        · exact tryEnqueue_capacity s.toUiQ _
        · exact tryEnqueue_items_length s.toUiQ _
        · show getParam (setParam s.params i v) id
              = (paramEventValueFor id (InEvent.paramValue t i v)).getD
                  (getParam s.params id)
          by_cases hii : i = id
          · subst hii
            rw [getParam_setParam_self i v s.params hi]
            show v = (if i = i then some v else none).getD (getParam s.params i)
            rw [if_pos rfl]
            rfl
          · rw [getParam_setParam_other i id hii v s.params]
            show getParam s.params id
                = (if i = id then some v else none).getD (getParam s.params id)
            rw [if_neg hii]
            rfl
        · by_cases hii : i = id
          · subst hii
            have hack : isParamAckFor i (⟨ToUIType.PARAM_VALUE, i, v⟩ : ToUI) = true := by
              simp [isParamAckFor]
            rw [countParamAcks_tryEnqueue_ack i s.toUiQ _ hack hroom]
            have hwr : isParamWriteFor i (InEvent.paramValue t i v) = true := by
              simp [isParamWriteFor, paramEventValueFor]
            rw [hwr, if_pos rfl]
          · have hack : isParamAckFor id (⟨ToUIType.PARAM_VALUE, i, v⟩ : ToUI) = false := by
              simp [isParamAckFor, hii]
            rw [countParamAcks_tryEnqueue_other id s.toUiQ _ hack]
            have hwr : isParamWriteFor id (InEvent.paramValue t i v) = false := by
              simp [isParamWriteFor, paramEventValueFor, hii]
            rw [hwr]
            rfl
      · have hii : i ≠ id := by
          intro e
          rw [e, hknown] at hi
          exact hi rfl
        have hred : handleInboundEvent steal s (InEvent.paramValue t i v)
            = { s with droppedEvents := s.droppedEvents + 1 } := by
          simp only [handleInboundEvent]
          rw [if_neg]
          intro hcontra
          exact hi hcontra
        rw [hred]
        refine ⟨hknown, rfl,
          by show s.toUiQ.items.length ≤ s.toUiQ.items.length + 1; omega, ?_, ?_⟩
        · show getParam s.params id
              = (if i = id then some v else none).getD (getParam s.params id)
          rw [if_neg hii]
          rfl
        · have hwr : isParamWriteFor id (InEvent.paramValue t i v) = false := by
            simp [isParamWriteFor, paramEventValueFor, hii]
          rw [hwr]
          rfl
  | editNotify t b i =>
      refine ⟨hknown, rfl,
        by show s.toUiQ.items.length ≤ s.toUiQ.items.length + 1; omega, rfl, ?_⟩
      show countParamAcks id s.toUiQ.items
          = countParamAcks id s.toUiQ.items
              + (if isParamWriteFor id (InEvent.editNotify t b i) then 1 else 0)
      rfl

theorem applyEvents_param_tracking (steal : SynthState → Nat) (id : ParamId) :
    ∀ (es : List InEvent) (s : SynthState),
      knownParam s.params id = true →
      s.toUiQ.items.length + es.length ≤ s.toUiQ.capacity →
      getParam (applyEvents steal s es).params id
          = (lastParamEventValue id es).getD (getParam s.params id) ∧
      countParamAcks id (applyEvents steal s es).toUiQ.items
          = countParamAcks id s.toUiQ.items + countParamWrites id es := by
  intro es
  induction es with
  | nil =>
      intro s _ _
      exact ⟨rfl, rfl⟩
  | cons e es ih =>
      intro s hknown hroom
      have hroom1 : s.toUiQ.items.length < s.toUiQ.capacity := by
        rw [List.length_cons] at hroom
        omega
      obtain ⟨hk', hcap', hlen', hget', hcnt'⟩ :=
        handleInboundEvent_param_step steal id s e hknown hroom1
      have hroom' : (handleInboundEvent steal s e).toUiQ.items.length + es.length
          ≤ (handleInboundEvent steal s e).toUiQ.capacity := by
        rw [hcap']
        rw [List.length_cons] at hroom
        omega
      obtain ⟨ihg, ihc⟩ := ih (handleInboundEvent steal s e) hk' hroom'
      constructor
      · show getParam (applyEvents steal (handleInboundEvent steal s e) es).params id
            = (lastParamEventValue id (e :: es)).getD (getParam s.params id)
        rw [ihg, hget', getD_lastParamEventValue_cons]
      · show countParamAcks id
            (applyEvents steal (handleInboundEvent steal s e) es).toUiQ.items
            = countParamAcks id s.toUiQ.items + countParamWrites id (e :: es)
        rw [ihc, hcnt', countParamWrites_cons]
        omega

/-- C2: For every parameter-value event processed during a block — host
automation in the sorted host-event stream or a UI AdjustValue message merged
at offset 0 — the corresponding parameter cell equals the value of the last
such event in processing order (sample-offset order for the sorted merged
timeline) by the end of the block, and, provided the ToUI queue does not
overflow, exactly one PARAM_VALUE acknowledgement per write is enqueued. -/
theorem param_cell_last_write_and_acks (steal : SynthState → Nat)
    (s : SynthState) (uiMsgs : List FromUI) (hostEvents : List InEvent)
    (id : ParamId)
    (hknown : knownParam s.params id = true)
    (hsorted : hostEvents.Pairwise (fun a b => a.time ≤ b.time))
    (hroom : s.toUiQ.items.length + (buildTimeline uiMsgs hostEvents).length
        ≤ s.toUiQ.capacity) :
    getParam (applyEvents steal s (buildTimeline uiMsgs hostEvents)).params id
        = (lastParamEventValue id (buildTimeline uiMsgs hostEvents)).getD
            (getParam s.params id) ∧
    countParamAcks id
        (applyEvents steal s (buildTimeline uiMsgs hostEvents)).toUiQ.items
        = countParamAcks id s.toUiQ.items
            + countParamWrites id (buildTimeline uiMsgs hostEvents) :=
  applyEvents_param_tracking steal id (buildTimeline uiMsgs hostEvents) s
    hknown hroom

/-- A concrete run of C2: a UI AdjustValue write of 1/2 to `pmCutoff` at
offset 0 followed by host automation writing 3/4 at offset 10 — the cell ends
at the last value and two acknowledgements (one per write) are enqueued. -/
theorem param_cell_last_write_and_acks_witness :
    knownParam initSynth.params pmCutoff = true ∧
    ([InEvent.paramValue 10 pmCutoff (3/4)].Pairwise
        (fun a b => a.time ≤ b.time)) ∧
    initSynth.toUiQ.items.length +
        (buildTimeline [⟨FromUIType.ADJUST_VALUE, pmCutoff, 1/2⟩]
          [InEvent.paramValue 10 pmCutoff (3/4)]).length
        ≤ initSynth.toUiQ.capacity ∧
    (getParam (applyEvents (fun _ => 0) initSynth
        (buildTimeline [⟨FromUIType.ADJUST_VALUE, pmCutoff, 1/2⟩]
          [InEvent.paramValue 10 pmCutoff (3/4)])).params pmCutoff
        = (lastParamEventValue pmCutoff
            (buildTimeline [⟨FromUIType.ADJUST_VALUE, pmCutoff, 1/2⟩]
              [InEvent.paramValue 10 pmCutoff (3/4)])).getD
            (getParam initSynth.params pmCutoff) ∧
     countParamAcks pmCutoff
        (applyEvents (fun _ => 0) initSynth
          (buildTimeline [⟨FromUIType.ADJUST_VALUE, pmCutoff, 1/2⟩]
            [InEvent.paramValue 10 pmCutoff (3/4)])).toUiQ.items
        = countParamAcks pmCutoff initSynth.toUiQ.items
            + countParamWrites pmCutoff
                (buildTimeline [⟨FromUIType.ADJUST_VALUE, pmCutoff, 1/2⟩]
                  [InEvent.paramValue 10 pmCutoff (3/4)])) :=
  ⟨by decide, by decide, by decide,
   param_cell_last_write_and_acks (fun _ => 0) initSynth
     [⟨FromUIType.ADJUST_VALUE, pmCutoff, 1/2⟩]
     [InEvent.paramValue 10 pmCutoff (3/4)] pmCutoff
     (by decide) (by decide) (by decide)⟩
